import Mathlib

/-!
Formal model of the SimQ-ai hybrid quantum/classical network simulator.

The development embeds, close to the Python source:
 - the link-level probability models (backend/app/link_models.py),
 - the path simulators (backend/app/simulator.py),
 - the routing engine with classical fallback (backend/app/routing.py)
   and the policy registry (backend/policy_registry.py),
 - the decoy-state BB84 session (backend/app/part6.py),
 - the repeater hill-climbing optimizer (backend/app/repeater_agent.py
   and backend/app/repeater_env.py).

Stochastic draws from the process-wide generator are modelled by an
explicit stream of sampled values together with a cursor: position i of
the stream holds the i-th value produced by the generator, where a
uniform draw and a gaussian draw each consume one position, in call
order (a gaussian position holds the sampled gaussian value itself).
Calls into the external networkx shortest-path routine are modelled by
an abstract oracle argument.  Python faults (a missing dictionary key,
an exception escaping a user-provided policy) are modelled with an
Except monad.
-/

namespace SimQ

/-- Stream of sampled random values of the shared generator. -/
abbrev RStream := Nat → ℝ

/-- Faults the Python code can raise: a missing dictionary key, a numpy
value error, calling a non-callable object or one of a different arity,
or an exception escaping a user-provided routing policy. -/
inductive Pyerr where
  | keyError : Pyerr
  | valueError : Pyerr
  | typeError : Pyerr
  | policyError : Pyerr
  deriving DecidableEq, Repr

/-- Edge attribute dictionary: distance_km and the quantum flag. -/
structure EdgeData where
  distance_km : ℝ
  quantum : Bool

/-- Annotated undirected graph, as consumed by the core: node attribute
lookups default to false (the Python code uses .get with default False),
and edge lookup returns none for a missing edge (a Python KeyError
site).  nodeSwap models the can_store_entanglement attribute. -/
structure Graph where
  nodeQuantum : Nat → Bool
  nodeSwap : Nat → Bool
  edge : Nat → Nat → Option EdgeData

/-! Configuration constants from backend/app/config.py. -/

noncomputable def COHERENCE_LENGTH_KM : ℝ := 50
noncomputable def ENTANGLEMENT_SWAP_SUCCESS : ℝ := 0.85
noncomputable def CLASSICAL_INTERCEPT_QUANTUM_FAIL_PROB : ℝ := 0.5
noncomputable def BASE_CLASSICAL_PACKET_LOSS : ℝ := 0.01
noncomputable def BASE_LATENCY_MS_PER_KM : ℝ := 0.005

namespace link_models

/-- Metrics dictionary returned by simulate_quantum_hop. -/
structure QHopM where
  p_survive : ℝ
  distance_km : ℝ
  mode : String

/-- quantum_survival_prob of link_models.py: exp(-d/L) clipped to the
unit interval, with L = COHERENCE_LENGTH_KM. -/
noncomputable def quantum_survival_prob (distance_km : ℝ) : ℝ :=
  max 0 (min 1 (Real.exp (-(distance_km / COHERENCE_LENGTH_KM))))

/-- simulate_quantum_hop: one uniform draw; over a non-quantum edge the
hop succeeds when the draw exceeds the intercept fail probability,
otherwise when the draw is below the survival probability. -/
noncomputable def simulate_quantum_hop (e : EdgeData) (r : RStream) (k : Nat) :
    Bool × QHopM × Nat :=
  if e.quantum = false then
    ((if CLASSICAL_INTERCEPT_QUANTUM_FAIL_PROB < r k then true else false),
      ⟨1 - CLASSICAL_INTERCEPT_QUANTUM_FAIL_PROB, e.distance_km, "quantum_over_classical"⟩,
      k + 1)
  else
    ((if r k < quantum_survival_prob e.distance_km then true else false),
      ⟨quantum_survival_prob e.distance_km, e.distance_km, "quantum"⟩, k + 1)

/-- simulate_entanglement_swap: deterministic failure without storage
(no draw consumed), otherwise one uniform draw against the configured
swap success probability. -/
noncomputable def simulate_entanglement_swap (can_swap : Bool) (r : RStream) (k : Nat) :
    Bool × ℝ × Nat :=
  if can_swap = false then (false, 0, k)
  else ((if r k < ENTANGLEMENT_SWAP_SUCCESS then true else false),
    ENTANGLEMENT_SWAP_SUCCESS, k + 1)

/-- classical_loss_prob: base loss plus one gaussian congestion-noise
draw, clipped to the unit interval. -/
noncomputable def classical_loss_prob (r : RStream) (k : Nat) : ℝ × Nat :=
  (max 0 (min 1 (BASE_CLASSICAL_PACKET_LOSS + r k)), k + 1)

/-- classical_latency_ms: distance times base latency plus one gaussian
jitter draw, floored at 0. -/
noncomputable def classical_latency_ms (distance_km : ℝ) (r : RStream) (k : Nat) : ℝ × Nat :=
  (max 0 (distance_km * BASE_LATENCY_MS_PER_KM + r k), k + 1)

/-- Metrics dictionary returned by simulate_classical_hop. -/
structure CHopM where
  p_loss : ℝ
  latency_ms : ℝ
  distance_km : ℝ
  mode : String

/-- simulate_classical_hop: three draws in order — loss noise, the
success draw (success when the draw exceeds the loss probability), and
latency jitter. -/
noncomputable def simulate_classical_hop (e : EdgeData) (r : RStream) (k : Nat) :
    Bool × CHopM × Nat :=
  let pl := classical_loss_prob r k
  let succ := if pl.1 < r pl.2 then true else false
  let lat := classical_latency_ms e.distance_km r (pl.2 + 1)
  (succ, ⟨pl.1, lat.1, e.distance_km, "classical"⟩, lat.2)

end link_models

namespace simulator

/-- Result dictionary of simulate_path_quantum. -/
structure PathMetrics where
  hops : Int
  mode : String
  total_distance_km : ℝ
  success : Bool

/-- Result dictionary of simulate_path_classical. -/
structure CPathMetrics where
  hops : Int
  mode : String
  total_distance_km : ℝ
  total_latency_ms : ℝ
  success : Bool
  lost_hop : Option (Nat × Nat)

/-- The edge loop of simulate_path_quantum: attempts each hop in order,
failing fast; after a successful non-final hop it attempts an
entanglement swap at the intermediate node.  Returns the success flag,
the accumulated distance and the final cursor. -/
noncomputable def qwalk (G : Graph) (r : RStream) :
    List Nat → Nat → ℝ → Except Pyerr (Bool × ℝ × Nat)
  | u :: v :: rest, k, acc =>
    match G.edge u v with
    | none => .error .keyError
    | some e =>
      let h := link_models.simulate_quantum_hop e r k
      if h.1 = false then .ok (false, acc + h.2.1.distance_km, h.2.2)
      else
        match rest with
        | [] => .ok (true, acc + h.2.1.distance_km, h.2.2)
        | _ :: _ =>
          let s := link_models.simulate_entanglement_swap (G.nodeSwap v) r h.2.2
          if s.1 = false then .ok (false, acc + h.2.1.distance_km, s.2.2)
          else qwalk G r (v :: rest) s.2.2 (acc + h.2.1.distance_km)
  | _, k, acc => .ok (true, acc, k)

/-- simulate_path_quantum of simulator.py.  The hops field is set to
len(path) - 1 up front and never updated. -/
noncomputable def simulate_path_quantum (G : Graph) (path : List Nat) (r : RStream) (k : Nat) :
    Except Pyerr (PathMetrics × Nat) :=
  (qwalk G r path k 0).map fun w =>
    (⟨(path.length : Int) - 1, "quantum_path", w.2.1, w.1⟩, w.2.2)

/-- The edge loop of simulate_path_classical: walks every edge,
accumulating distance and latency; on the first lost hop (while the
running success flag is still true) it records the hop and clears the
flag, then keeps walking. -/
noncomputable def cwalk (G : Graph) (r : RStream) :
    List Nat → Nat → ℝ → ℝ → Bool → Option (Nat × Nat) →
    Except Pyerr (ℝ × ℝ × Bool × Option (Nat × Nat) × Nat)
  | u :: v :: rest, k, dist, lat, succ, lost =>
    match G.edge u v with
    | none => .error .keyError
    | some e =>
      let h := link_models.simulate_classical_hop e r k
      if h.1 = false ∧ succ = true then
        cwalk G r (v :: rest) h.2.2 (dist + h.2.1.distance_km)
          (lat + h.2.1.latency_ms) false (some (u, v))
      else
        cwalk G r (v :: rest) h.2.2 (dist + h.2.1.distance_km)
          (lat + h.2.1.latency_ms) succ lost
  | _, k, dist, lat, succ, lost => .ok (dist, lat, succ, lost, k)

/-- simulate_path_classical of simulator.py. -/
noncomputable def simulate_path_classical (G : Graph) (path : List Nat) (r : RStream) (k : Nat) :
    Except Pyerr (CPathMetrics × Nat) :=
  (cwalk G r path k 0 0 true none).map fun w =>
    (⟨(path.length : Int) - 1, "classical_path", w.1, w.2.1, w.2.2.1, w.2.2.2.1⟩, w.2.2.2.2)

/-- Specification-side predicate: every consecutive pair of the path is
an existing edge of the graph. -/
def edgesOk (G : Graph) : List Nat → Bool
  | u :: v :: rest => (G.edge u v).isSome && edgesOk G (v :: rest)
  | _ => true

/-- Specification-side sum of the edge distances along a path. -/
noncomputable def pathDistance (G : Graph) : List Nat → ℝ
  | u :: v :: rest =>
      (match G.edge u v with
       | some e => e.distance_km
       | none => 0) + pathDistance G (v :: rest)
  | _ => 0

/-- Specification-side trace of the classical walk: the endpoints and
the success draw of every hop, replaying the same draws in the same
order as cwalk. -/
noncomputable def classicalOutcomes (G : Graph) (r : RStream) :
    List Nat → Nat → Except Pyerr (List ((Nat × Nat) × Bool) × Nat)
  | u :: v :: rest, k =>
    match G.edge u v with
    | none => .error .keyError
    | some e =>
      let h := link_models.simulate_classical_hop e r k
      (classicalOutcomes G r (v :: rest) h.2.2).map fun w => (((u, v), h.1) :: w.1, w.2)
  | _, k => .ok ([], k)

/-- One event of the quantum walk: a hop attempt over an edge, or an
entanglement swap at an intermediate node. -/
inductive QEvent where
  | hop : Nat → Nat → ℝ → Bool → QEvent
  | swap : Nat → Bool → QEvent

/-- Whether the event succeeded. -/
def QEvent.ok : QEvent → Bool
  | .hop _ _ _ b => b
  | .swap _ b => b

/-- Distance contributed by the event (swaps contribute nothing). -/
def QEvent.dist : QEvent → ℝ
  | .hop _ _ d _ => d
  | .swap _ _ => 0

/-- Specification-side trace of the full quantum walk: hop and swap
events for the whole path, consuming draws at the same cursor positions
as qwalk as long as the walk is still running (events after the first
failure describe the draws the fail-fast walk never takes). -/
noncomputable def quantumEvents (G : Graph) (r : RStream) :
    List Nat → Nat → Except Pyerr (List QEvent × Nat)
  | u :: v :: rest, k =>
    match G.edge u v with
    | none => .error .keyError
    | some e =>
      let h := link_models.simulate_quantum_hop e r k
      match rest with
      | [] => .ok ([QEvent.hop u v h.2.1.distance_km h.1], h.2.2)
      | _ :: _ =>
        let s := link_models.simulate_entanglement_swap (G.nodeSwap v) r h.2.2
        (quantumEvents G r (v :: rest) s.2.2).map fun w =>
          (QEvent.hop u v h.2.1.distance_km h.1 :: QEvent.swap v s.1 :: w.1, w.2)
  | _, k => .ok ([], k)

/-- Portion of an event trace the fail-fast walk actually performs: all
events up to and including the first failing one. -/
def throughFirstFailure : List QEvent → List QEvent
  | [] => []
  | e :: rest => if e.ok then e :: throughFirstFailure rest else [e]

/-- Total distance of the hop events in a trace. -/
noncomputable def eventsDistance (es : List QEvent) : ℝ :=
  (es.map QEvent.dist).sum

end simulator

namespace routing

/-- Oracle modelling the external networkx weighted shortest-path
routine: given a per-distance edge weight, a graph and endpoints it
returns a path, or none when no path exists (NetworkXNoPath or a
missing endpoint). -/
abbrev SPOracle := (ℝ → ℝ) → Graph → Nat → Nat → Option (List Nat)

/-- The local quantum_survival_prob of routing.py: exp(-d/L) with the
default L = 50, without clipping. -/
noncomputable def quantum_survival_prob (dist_km : ℝ) : ℝ :=
  Real.exp (-(dist_km / 50))

/-- q_weight of routing.py: -log(max(P, 1e-9)). -/
noncomputable def q_weight (dist_km : ℝ) : ℝ :=
  -Real.log (max (quantum_survival_prob dist_km) (1 / 1000000000))

/-- c_latency_weight of routing.py: 5 microseconds per km. -/
noncomputable def c_latency_weight (dist_km : ℝ) : ℝ :=
  dist_km * 0.005

/-- The subgraph of quantum edges, as built by quantum_only and
hybrid. -/
def quantum_subgraph (G : Graph) : Graph where
  nodeQuantum := G.nodeQuantum
  nodeSwap := G.nodeSwap
  edge := fun u v =>
    match G.edge u v with
    | some e => if e.quantum = true then some e else none
    | none => none

/-- A routing policy as stored in the registry: returns a path, none
(no path), or raises: the error summand models an exception escaping
the function. -/
def PathFn := Graph → Nat → Nat → Except Pyerr (Option (List Nat))

/-- quantum_only of routing.py: weighted shortest path inside the
quantum subgraph, none when disconnected. -/
noncomputable def quantum_only_path (sp : SPOracle) (G : Graph) (src dst : Nat) :
    Option (List Nat) :=
  sp q_weight (quantum_subgraph G) src dst

/-- quantum_only as a registered policy (it never raises). -/
noncomputable def quantum_only (sp : SPOracle) : PathFn :=
  fun G src dst => .ok (quantum_only_path sp G src dst)

/-- classical_latency of routing.py as a pure path computation:
shortest path over the full graph under the latency weight. -/
noncomputable def classical_latency_path (sp : SPOracle) (G : Graph) (src dst : Nat) :
    Option (List Nat) :=
  sp c_latency_weight G src dst

/-- classical_latency as a registered policy (it never raises). -/
noncomputable def classical_latency (sp : SPOracle) : PathFn :=
  fun G src dst => .ok (classical_latency_path sp G src dst)

/-- The greedy loop of the hybrid policy: while a quantum path of at
least two nodes exists from the current node, take its first hop;
otherwise append the classical-latency tail (when one exists) and
stop.  The fuel argument bounds the while loop of the source, which
has no intrinsic termination bound. -/
noncomputable def hybrid_loop (sp : SPOracle) (G : Graph) (dst : Nat) :
    Nat → Nat → List Nat → List Nat
  | 0, _, acc => acc
  | fuel + 1, here, acc =>
    if here = dst then acc
    else
      match sp q_weight (quantum_subgraph G) here dst with
      | some (_ :: next :: _) => hybrid_loop sp G dst fuel next (acc ++ [next])
      | _ =>
        match classical_latency_path sp G here dst with
        | some (_ :: tl) => acc ++ tl
        | _ => acc

/-- hybrid of routing.py as a pure path computation. -/
noncomputable def hybrid_path (sp : SPOracle) (fuel : Nat) (G : Graph) (src dst : Nat) :
    List Nat :=
  hybrid_loop sp G dst fuel src [src]

/-- hybrid as a registered policy (always returns a list). -/
noncomputable def hybrid (sp : SPOracle) (fuel : Nat) : PathFn :=
  fun G src dst => .ok (some (hybrid_path sp fuel G src dst))

/-- The POLICIES dictionary of backend/policy_registry.py right after
routing.py is imported: the three registered default policies.  get(name)
on any other name raises KeyError, modelled as none. -/
noncomputable def POLICIES (sp : SPOracle) (fuel : Nat) : String → Option PathFn :=
  fun name =>
    if name = "quantum_only" then some (quantum_only sp)
    else if name = "classical_latency" then some (classical_latency sp)
    else if name = "hybrid" then some (hybrid sp fuel)
    else none

/-- Result dictionary of send_message (field absent in a given return
statement is modelled as none). -/
structure SendResult where
  success : Bool
  reason : Option String
  policy : Option String
  mode : Option String
  path : Option (List Nat)

/-- send_message of routing.py: look the policy up in the registry
(KeyError when absent), call it (an exception propagates, there is no
try/except), fail with no_path on a falsy path, otherwise simulate the
whole path as quantum and, if that fails, as classical.  The registry
is a parameter because the module-level POLICIES dict is mutable and
external collaborators register policies in it. -/
noncomputable def send_message (registry : String → Option PathFn) (G : Graph)
    (src dst : Nat) (policy : String) (r : RStream) (k : Nat) :
    Except Pyerr (SendResult × Nat) :=
  match registry policy with
  | none => .error .keyError
  | some path_fn =>
    match path_fn G src dst with
    | .error e => .error e
    | .ok none => .ok (⟨false, some "no_path", some policy, none, none⟩, k)
    | .ok (some []) => .ok (⟨false, some "no_path", some policy, none, none⟩, k)
    | .ok (some (p0 :: ptl)) =>
      match simulator.simulate_path_quantum G (p0 :: ptl) r k with
      | .error e => .error e
      | .ok (qm, k1) =>
        if qm.success = true then
          .ok (⟨true, none, none, some "quantum", some (p0 :: ptl)⟩, k1)
        else
          match simulator.simulate_path_classical G (p0 :: ptl) r k1 with
          | .error e => .error e
          | .ok (cm, k2) =>
            .ok (⟨cm.success, none, none, some "classical", some (p0 :: ptl)⟩, k2)

/-- mode_lookup.get(policy, policy) of send_message_reliable. -/
def mode_lookup (policy : String) : String :=
  if policy = "quantum_only" then "quantum_path"
  else if policy = "classical_latency" then "classical_path"
  else if policy = "hybrid" then "hybrid_path"
  else policy

/-- All names in globals() of the routing.py module: the implicit
module attributes (every imported module surely carries __name__,
__doc__, __package__, __loader__, __spec__, __file__ and __builtins__;
__cached__ and __annotations__ are listed conservatively, their
presence being version- and run-mode-dependent), the imported names,
and the functions defined in the module. -/
def routing_module_globals : List String :=
  ["__name__", "__doc__", "__package__", "__loader__", "__spec__", "__file__",
   "__cached__", "__builtins__", "__annotations__",
   "annotations", "math", "List", "Dict", "Any", "nx", "register", "get_policy",
   "simulate_path_quantum", "simulate_path_classical", "quantum_survival_prob",
   "q_weight", "c_latency_weight", "quantum_only", "classical_latency", "hybrid",
   "send_message", "_classical_latency_path", "send_message_reliable"]

/-- Names of the functions defined (with def) in the routing.py module
itself. -/
def routing_module_functions : List String :=
  ["quantum_survival_prob", "q_weight", "c_latency_weight", "quantum_only",
   "classical_latency", "hybrid", "send_message", "_classical_latency_path",
   "send_message_reliable"]

/-- The module globals that are certainly present and whose value
cannot be invoked with arguments (graph, src, dst): imported modules
(math, nx), typing aliases (List, Dict, Any), the future-feature object
(annotations), the always-present dunder attributes (strings, loader,
spec, builtins), and functions of a different arity (register,
get_policy, the two simulators, the survival and weight helpers).
Calling any of these with three arguments raises TypeError. -/
def routing_non_path_globals : List String :=
  ["__name__", "__doc__", "__package__", "__loader__", "__spec__", "__file__",
   "__builtins__",
   "annotations", "math", "List", "Dict", "Any", "nx", "register", "get_policy",
   "simulate_path_quantum", "simulate_path_classical", "quantum_survival_prob",
   "q_weight", "c_latency_weight"]

/-- Models globals().get(policy, hybrid) followed by the call
path_fn(G, src, dst) in send_message_reliable.  The three policy names
resolve to the corresponding policies.  _classical_latency_path is also
a module function of the right arity: it is the shortest path weighted
by the raw distance_km attribute.  send_message and
send_message_reliable are callable with (G, src, dst) but return a
result dict, whose subsequent indexing with the integer 0 raises
KeyError (the model collapses the draws consumed by that inner run
into the terminal error).  Every other module global is not callable
with three arguments, so the call raises TypeError.  A name absent
from the module globals falls back to the default hybrid (the
version-dependent names __cached__ and __annotations__ reach the final
branch, and every theorem below excludes them through
routing_module_globals). -/
noncomputable def globals_get (sp : SPOracle) (fuel : Nat) (name : String) : PathFn :=
  if name = "quantum_only" then quantum_only sp
  else if name = "classical_latency" then classical_latency sp
  else if name = "hybrid" then hybrid sp fuel
  else if name = "_classical_latency_path" then
    fun G src dst => .ok (sp (fun d => d) G src dst)
  else if name = "send_message" ∨ name = "send_message_reliable" then
    fun _ _ _ => .error .keyError
  else if name ∈ routing_non_path_globals then
    fun _ _ _ => .error .typeError
  else hybrid sp fuel

/-- One record of the reliable-send history.  The Python code merges
the simulator metrics dict over a mode key, so the mode stored in a
record is the simulator mode string (quantum_path / classical_path). -/
inductive HistRec where
  | q : simulator.PathMetrics → List Nat → HistRec
  | c : simulator.CPathMetrics → List Nat → HistRec

/-- The mode tag of a history record (the merged dict mode key). -/
def HistRec.mode : HistRec → String
  | .q m _ => m.mode
  | .c m _ => m.mode

/-- Result dictionary of send_message_reliable. -/
structure ReliableResult where
  success : Bool
  reason : Option String
  mode : Option String
  path : Option (List Nat)
  history : List HistRec

/-- The classical-tail loop of send_message_reliable: simulate each
tail hop as a 2-node classical path, recording each hop. -/
noncomputable def tail_run (G : Graph) (r : RStream) :
    List Nat → Nat → Except Pyerr (List HistRec × Nat)
  | x :: y :: rest, k =>
    match simulator.simulate_path_classical G [x, y] r k with
    | .error e => .error e
    | .ok (cres, k1) =>
      (tail_run G r (y :: rest) k1).map fun w => (HistRec.c cres [x, y] :: w.1, w.2)
  | _, k => .ok ([], k)

/-- The hop-by-hop walk of send_message_reliable over the remaining
planned path.  The assembled argument carries the nodes walked so far
(ending at the current node); on a failed quantum hop the walk
replans a classical-latency tail from the current node. -/
noncomputable def reliable_walk (sp : SPOracle) (G : Graph) (dst : Nat)
    (init_mode : String) (r : RStream) :
    List Nat → List Nat → List HistRec → Nat → Except Pyerr (ReliableResult × Nat)
  | u :: v :: rest, assembled, history, k =>
    match G.edge u v with
    | none => .error .keyError
    | some d =>
      if d.quantum = true then
        match simulator.simulate_path_quantum G [u, v] r k with
        | .error e => .error e
        | .ok (qres, k1) =>
          if qres.success = true then
            reliable_walk sp G dst init_mode r (v :: rest) (assembled ++ [v])
              (history ++ [HistRec.q qres [u, v]]) k1
          else
            match classical_latency_path sp G u dst with
            | none =>
              .ok (⟨false, some "no_classical_fallback", none, none,
                history ++ [HistRec.q qres [u, v]]⟩, k1)
            | some [] =>
              .ok (⟨false, some "no_classical_fallback", none, none,
                history ++ [HistRec.q qres [u, v]]⟩, k1)
            | some (t0 :: ttl) =>
              match tail_run G r (t0 :: ttl) k1 with
              | .error e => .error e
              | .ok (recs, k2) =>
                .ok (⟨true, none, some init_mode, some (assembled ++ ttl),
                  (history ++ [HistRec.q qres [u, v]]) ++ recs⟩, k2)
      else
        match simulator.simulate_path_classical G [u, v] r k with
        | .error e => .error e
        | .ok (cres, k1) =>
          reliable_walk sp G dst init_mode r (v :: rest) (assembled ++ [v])
            (history ++ [HistRec.c cres [u, v]]) k1
  | _, assembled, history, k =>
    .ok (⟨true, none, some init_mode, some assembled, history⟩, k)

/-- send_message_reliable of routing.py: resolve the policy through
globals().get (defaulting to hybrid), fail with no_path on a falsy or
shorter-than-2 path, otherwise walk the path hop by hop. -/
noncomputable def send_message_reliable (sp : SPOracle) (fuel : Nat) (G : Graph)
    (src dst : Nat) (policy : String) (r : RStream) (k : Nat) :
    Except Pyerr (ReliableResult × Nat) :=
  match globals_get sp fuel policy G src dst with
  | .error e => .error e
  | .ok none => .ok (⟨false, some "no_path", none, none, []⟩, k)
  | .ok (some []) => .ok (⟨false, some "no_path", none, none, []⟩, k)
  | .ok (some (p0 :: ptl)) =>
    if ptl = [] then .ok (⟨false, some "no_path", none, none, []⟩, k)
    else reliable_walk sp G dst (mode_lookup policy) r (p0 :: ptl) [p0] [] k

end routing

namespace part6

/-- QBER abort threshold of part6.py. -/
def QBER_LIMIT : ℚ := 11 / 100

/-- Decoy yield-gap abort threshold of part6.py. -/
def DELTA_Y_LIM : ℚ := 1 / 20

/-- The detection array after the optional photon-number-splitting
attacker: with pns, a detected decoy pulse whose drop draw fires is
blocked.  The boolean arrays are the sampled outcomes of the numpy
draws (a position i holds the i-th comparison outcome). -/
def bb84_detection (pns : Bool) (is_decoy detection0 pnsDraw : Nat → Bool) :
    Nat → Bool :=
  fun i =>
    if pns then detection0 i && !(is_decoy i && detection0 i && pnsDraw i)
    else detection0 i

/-- Bob's measured bits: on matching bases Alice's bit possibly
noise-flipped, otherwise an independent random bit. -/
def bb84_bits_B (bits_A bases_A bases_B noise_flip bits_B_rand : Nat → Bool) :
    Nat → Bool :=
  fun i =>
    if bases_A i == bases_B i then xor (bits_A i) (noise_flip i)
    else bits_B_rand i

/-- Positions where the bases match (the sifted positions, in order). -/
def bb84_sifted (n : Nat) (bases_A bases_B : Nat → Bool) : List Nat :=
  (List.range n).filter fun i => bases_A i == bases_B i

/-- Alice's sifted bits. -/
def bb84_sift_A (n : Nat) (bits_A bases_A bases_B : Nat → Bool) : List Bool :=
  (bb84_sifted n bases_A bases_B).map bits_A

/-- Bob's sifted bits. -/
def bb84_sift_B (n : Nat)
    (bits_A bases_A bases_B noise_flip bits_B_rand : Nat → Bool) : List Bool :=
  (bb84_sifted n bases_A bases_B).map
    (bb84_bits_B bits_A bases_A bases_B noise_flip bits_B_rand)

/-- Mean of a boolean array over a list of positions (0 on an empty
list, mirroring the any() guards of the source). -/
def maskMean (l : List Nat) (f : Nat → Bool) : ℚ :=
  if l = [] then 0 else (l.countP f : ℚ) / l.length

/-- Detection yield over the signal-tagged sifted positions. -/
def bb84_y_sig (n : Nat) (pns : Bool)
    (bases_A bases_B is_decoy detection0 pnsDraw : Nat → Bool) : ℚ :=
  maskMean ((List.range n).filter fun i => (bases_A i == bases_B i) && !is_decoy i)
    (bb84_detection pns is_decoy detection0 pnsDraw)

/-- Detection yield over the decoy-tagged sifted positions. -/
def bb84_y_dec (n : Nat) (pns : Bool)
    (bases_A bases_B is_decoy detection0 pnsDraw : Nat → Bool) : ℚ :=
  maskMean ((List.range n).filter fun i => (bases_A i == bases_B i) && is_decoy i)
    (bb84_detection pns is_decoy detection0 pnsDraw)

/-- The sampled QBER: disagreement rate of the disclosed sample. -/
def bb84_qber (sift_A sift_B : List Bool) (idx : List Nat) : ℚ :=
  (idx.countP (fun i => !(sift_A.getD i false == sift_B.getD i false)) : ℚ) /
    idx.length

/-- Disclosed sample size: max(1, int(len * 0.02)). -/
def bb84_sample_len (len : Nat) : Nat := max 1 (len * 2 / 100)

/-- Positions of the sifted strings kept after discarding the
disclosed sample. -/
def bb84_keep (len : Nat) (idx : List Nat) : List Nat :=
  (List.range len).filter fun i => ! idx.contains i

/-- The toy reconciliation of part6.py, up to the final external
sha3-256 hash: single global parity correction (flip Bob's first bit
when the bit-count parities differ), then keep the positions where the
strings agree.  The session key is the hash of these aligned bits. -/
def reconcile (a b : List Bool) : List Bool :=
  let b1 :=
    if ((a.count true : Int) - (b.count true : Int)) % 2 ≠ 0
    then b.modifyHead (fun x => !x) else b
  ((a.zip b1).filter fun p => p.1 == p.2).map fun p => p.1

/-- The third element of the returned tuple: an abort message or the
material that is hashed into the session key. -/
inductive BB84Result where
  | qberAbort : String → BB84Result
  | decoyAbort : ℚ → BB84Result
  | key : List Bool → BB84Result
  deriving DecidableEq, Repr

/-- The tuple returned by run_bb84: success flag, sampled QBER, abort
message or key material, and both yields. -/
structure BB84Out where
  success : Bool
  qber : ℚ
  result : BB84Result
  y_sig : ℚ
  y_dec : ℚ
  deriving DecidableEq, Repr

/-- run_bb84 of part6.py over the sampled draw arrays: sift, compute
both yields, abort on high QBER, then abort on a decoy yield gap,
otherwise reconcile the kept bits into key material.  The error case
models the rng.choice fault when there is nothing to sample from. -/
def run_bb84 (n : Nat)
    (bits_A bases_A is_decoy detection0 pnsDraw bases_B noise_flip bits_B_rand :
      Nat → Bool)
    (pns : Bool) (idx : List Nat) : Except Pyerr BB84Out :=
  let sift_A := bb84_sift_A n bits_A bases_A bases_B
  let sift_B := bb84_sift_B n bits_A bases_A bases_B noise_flip bits_B_rand
  let y_sig := bb84_y_sig n pns bases_A bases_B is_decoy detection0 pnsDraw
  let y_dec := bb84_y_dec n pns bases_A bases_B is_decoy detection0 pnsDraw
  if sift_A.length < bb84_sample_len sift_A.length then .error .valueError
  else
    let qber := bb84_qber sift_A sift_B idx
    if QBER_LIMIT < qber then
      .ok ⟨false, qber, .qberAbort "Abort: QBER too high", y_sig, y_dec⟩
    else
      if DELTA_Y_LIM < |y_sig - y_dec| then
        .ok ⟨false, qber, .decoyAbort |y_sig - y_dec|, y_sig, y_dec⟩
      else
        .ok ⟨true, qber,
          .key (reconcile
            ((bb84_keep sift_A.length idx).map fun i => sift_A.getD i false)
            ((bb84_keep sift_A.length idx).map fun i => sift_B.getD i false)),
          y_sig, y_dec⟩

end part6

namespace repeater

/-- RepeaterEnv state relevant to the reward and the search: the base
graph, endpoints, repeater budget, Monte Carlo trial count and the
node count of the graph. -/
structure RepeaterEnv where
  G_orig : Graph
  src : Nat
  dst : Nat
  max_repeaters : Nat
  trials : Nat
  n_nodes : Nat

/-- RepeaterEnv._clone_graph: upgrade every masked node to quantum
capable with entanglement storage. -/
def clone_graph (G : Graph) (mask : List Bool) : Graph where
  nodeQuantum := fun n => if mask.getD n false then true else G.nodeQuantum n
  nodeSwap := fun n => if mask.getD n false then true else G.nodeSwap n
  edge := G.edge

/-- The Monte Carlo loop of _compute_reward: count successful quantum
path simulations over the given number of trials. -/
noncomputable def mc_successes (G : Graph) (p : List Nat) (r : RStream) :
    Nat → Nat → Except Pyerr (Nat × Nat)
  | 0, k => .ok (0, k)
  | t + 1, k =>
    match simulator.simulate_path_quantum G p r k with
    | .error e => .error e
    | .ok w =>
      (mc_successes G p r t w.2).map fun s =>
        ((if w.1.success then s.1 + 1 else s.1), s.2)

/-- RepeaterEnv._compute_reward: clone the graph under the mask, take
the (unweighted networkx) shortest path via the oracle sp0 (reward -1
when disconnected), and return the Monte Carlo success rate minus the
per-repeater penalty. -/
noncomputable def compute_reward (env : RepeaterEnv)
    (sp0 : Graph → Nat → Nat → Option (List Nat)) (repeaters : List Bool)
    (r : RStream) (k : Nat) : Except Pyerr (ℚ × Nat) :=
  match sp0 (clone_graph env.G_orig repeaters) env.src env.dst with
  | none => .ok (-1, k)
  | some p =>
    (mc_successes (clone_graph env.G_orig repeaters) p r env.trials k).map fun s =>
      ((s.1 : ℚ) / env.trials - (1 / 100) * (repeaters.count true : ℚ), s.2)

/-- Flip one position of the mask (candidate[flip] ^= 1). -/
def toggle (mask : List Bool) (i : Nat) : List Bool :=
  mask.set i (!(mask.getD i false))

/-- The loop state of hill_climb: best mask and reward so far, the
env.repeaters field last written, the count of flip draws consumed and
the link-model draw cursor. -/
structure HillState where
  best_mask : List Bool
  best_reward : ℚ
  repeaters : List Bool
  j : Nat
  k : Nat
  deriving DecidableEq

/-- One iteration of hill_climb: copy the best mask, flip the drawn
node, discard the candidate without evaluating its reward when it
exceeds the budget, otherwise keep it iff its reward strictly exceeds
the current best. -/
noncomputable def hill_step (env : RepeaterEnv)
    (sp0 : Graph → Nat → Nat → Option (List Nat)) (flips : Nat → Nat)
    (r : RStream) (s : HillState) : Except Pyerr HillState :=
  if env.max_repeaters < (toggle s.best_mask (flips s.j)).count true then
    .ok ⟨s.best_mask, s.best_reward, toggle s.best_mask (flips s.j), s.j + 1, s.k⟩
  else
    match compute_reward env sp0 (toggle s.best_mask (flips s.j)) r s.k with
    | .error e => .error e
    | .ok w =>
      if s.best_reward < w.1 then
        .ok ⟨toggle s.best_mask (flips s.j), w.1,
          toggle s.best_mask (flips s.j), s.j + 1, w.2⟩
      else
        .ok ⟨s.best_mask, s.best_reward, toggle s.best_mask (flips s.j), s.j + 1, w.2⟩

/-- The initial state of hill_climb: env.reset() zeroes the mask and
the initial best reward is computed on the all-zero mask. -/
noncomputable def hill_init (env : RepeaterEnv)
    (sp0 : Graph → Nat → Nat → Option (List Nat)) (r : RStream) (k : Nat) :
    Except Pyerr HillState :=
  (compute_reward env sp0 (List.replicate env.n_nodes false) r k).map fun w =>
    ⟨List.replicate env.n_nodes false, w.1, List.replicate env.n_nodes false, 0, w.2⟩

/-- The state after n iterations of the hill_climb loop. -/
noncomputable def hill_iter (env : RepeaterEnv)
    (sp0 : Graph → Nat → Nat → Option (List Nat)) (flips : Nat → Nat)
    (r : RStream) (k : Nat) : Nat → Except Pyerr HillState
  | 0 => hill_init env sp0 r k
  | n + 1 => (hill_iter env sp0 flips r k n).bind (hill_step env sp0 flips r)

/-- hill_climb of repeater_agent.py: run the iteration budget and
return the best mask with its reward. -/
noncomputable def hill_climb (env : RepeaterEnv)
    (sp0 : Graph → Nat → Nat → Option (List Nat)) (flips : Nat → Nat)
    (r : RStream) (k : Nat) (iterations : Nat) :
    Except Pyerr (List Bool × ℚ) :=
  (hill_iter env sp0 flips r k iterations).map fun s => (s.best_mask, s.best_reward)

end repeater

/-! Concrete inputs used by the counterexamples and witnesses. -/

/-- Concrete three-node line graph 0 - 1 - 2 with classical edges. -/
noncomputable def G3 : Graph where
  nodeQuantum := fun _ => true
  nodeSwap := fun _ => true
  edge := fun u v =>
    if (u = 0 ∧ v = 1) ∨ (u = 1 ∧ v = 0) then some ⟨7, false⟩
    else if (u = 1 ∧ v = 2) ∨ (u = 2 ∧ v = 1) then some ⟨3, false⟩
    else none

/-- Concrete two-node graph with one quantum edge 0 - 1. -/
noncomputable def G2q : Graph where
  nodeQuantum := fun _ => true
  nodeSwap := fun _ => true
  edge := fun u v =>
    if (u = 0 ∧ v = 1) ∨ (u = 1 ∧ v = 0) then some ⟨10, true⟩ else none

/-- Shortest-path oracle that always reports no path. -/
noncomputable def noPathOracle : routing.SPOracle := fun _ _ _ _ => none

/-- Stream whose every draw is 0. -/
noncomputable def zeroStream : RStream := fun _ => 0

/-- Stream whose every draw is 1. -/
noncomputable def oneStream : RStream := fun _ => 1

/-- A registry entry modelling an externally provided policy whose body
raises an exception when invoked. -/
noncomputable def raising_policy : routing.PathFn := fun _ _ _ => .error .policyError

/-- A registry state where the externally provided raising policy has
been registered under the name ext. -/
noncomputable def registry_with_raising : String → Option routing.PathFn :=
  fun name => if name = "ext" then some raising_policy else none

/-- A registry entry that always returns the single-node path [0]. -/
noncomputable def const_path_policy : routing.PathFn := fun _ _ _ => .ok (some [0])

/-- A registry state holding only const_path_policy under the name
const. -/
noncomputable def registry_const : String → Option routing.PathFn :=
  fun name => if name = "const" then some const_path_policy else none

/-- All-false boolean array. -/
def wf : Nat → Bool := fun _ => false

/-- All-true boolean array. -/
def wt : Nat → Bool := fun _ => true

/-- Decoy tagging marking only position 1. -/
def wdecoy : Nat → Bool := fun i => i == 1

/-- A small repeater environment over the two-node quantum graph. -/
noncomputable def envW : repeater.RepeaterEnv :=
  ⟨G2q, 0, 1, 3, 5, 2⟩

/-- Unweighted shortest-path oracle that always reports no path. -/
def sp0None : Graph → Nat → Nat → Option (List Nat) := fun _ _ _ => none

/-- Flip draws that always pick node 0. -/
def flips0 : Nat → Nat := fun _ => 0

/-! Claims about the link model and the degenerate single-node path. -/

/-- Helper: the clipped survival probability is at most one. -/
theorem quantum_survival_prob_le_one (d : ℝ) :
    link_models.quantum_survival_prob d ≤ 1 := by
  unfold link_models.quantum_survival_prob
  exact max_le zero_le_one (min_le_left 1 _)

/-- Helper: the clipped survival probability is nonnegative. -/
theorem quantum_survival_prob_nonneg (d : ℝ) :
    0 ≤ link_models.quantum_survival_prob d :=
  le_max_left 0 _

/-- C7: for every distance d ≥ 0, quantum_survival_prob d equals
exp(-d/coherenceLength) clipped to the unit interval, lies within
the unit interval, equals 1 at d = 0, and is monotonically
non-increasing in the distance. -/
theorem quantum_survival_prob_spec (d : ℝ) (hd : 0 ≤ d) :
    link_models.quantum_survival_prob d =
        max 0 (min 1 (Real.exp (-(d / COHERENCE_LENGTH_KM)))) ∧
    0 ≤ link_models.quantum_survival_prob d ∧
    link_models.quantum_survival_prob d ≤ 1 ∧
    link_models.quantum_survival_prob 0 = 1 ∧
    ∀ d2, d ≤ d2 →
      link_models.quantum_survival_prob d2 ≤ link_models.quantum_survival_prob d := by
  refine ⟨rfl, quantum_survival_prob_nonneg d, quantum_survival_prob_le_one d, ?_, ?_⟩
  · unfold link_models.quantum_survival_prob
    simp [Real.exp_zero]
  · intro d2 h12
    unfold link_models.quantum_survival_prob
    have hL : (0 : ℝ) < COHERENCE_LENGTH_KM := by norm_num [COHERENCE_LENGTH_KM]
    have hexp : Real.exp (-(d2 / COHERENCE_LENGTH_KM)) ≤
        Real.exp (-(d / COHERENCE_LENGTH_KM)) := by
      apply Real.exp_le_exp.mpr
      have hq : d / COHERENCE_LENGTH_KM ≤ d2 / COHERENCE_LENGTH_KM :=
        (div_le_div_right hL).mpr h12
      linarith
    exact max_le_max le_rfl (min_le_min le_rfl hexp)

/-- Helper: the classical hop metrics carry the edge distance. -/
theorem classical_hop_distance (e : EdgeData) (r : RStream) (k : Nat) :
    (link_models.simulate_classical_hop e r k).2.1.distance_km = e.distance_km := rfl

/-- Helper: the quantum hop metrics carry the edge distance. -/
theorem quantum_hop_distance (e : EdgeData) (r : RStream) (k : Nat) :
    (link_models.simulate_quantum_hop e r k).2.1.distance_km = e.distance_km := by
  unfold link_models.simulate_quantum_hop
  split <;> rfl

/-- Helper: full characterisation of the classical walk against its
hop-outcome trace, for arbitrary accumulator state. -/
theorem cwalk_run (G : Graph) (r : RStream) :
    ∀ (p : List Nat), simulator.edgesOk G p = true →
    ∀ (k : Nat) (dist lat : ℝ) (succ : Bool) (lost : Option (Nat × Nat)),
    ∃ os lat1 k1,
      simulator.classicalOutcomes G r p k = .ok (os, k1) ∧
      simulator.cwalk G r p k dist lat succ lost =
        .ok (dist + simulator.pathDistance G p, lat1,
          succ && os.all (fun o => o.2),
          (if succ = true then
            (match os.find? (fun o => !o.2) with
             | some o => some o.1
             | none => lost)
           else lost), k1) := by
  intro p
  induction p with
  | nil =>
    intro _ k dist lat succ lost
    refine ⟨[], lat, k, rfl, ?_⟩
    cases succ <;> simp [simulator.cwalk, simulator.pathDistance]
  | cons u tl ih =>
    cases tl with
    | nil =>
      intro _ k dist lat succ lost
      refine ⟨[], lat, k, rfl, ?_⟩
      cases succ <;> simp [simulator.cwalk, simulator.pathDistance]
    | cons v rest =>
      intro hE k dist lat succ lost
      rw [simulator.edgesOk, Bool.and_eq_true] at hE
      obtain ⟨e, he⟩ := Option.isSome_iff_exists.mp hE.1
      have hrec := ih hE.2
      cases hb : (link_models.simulate_classical_hop e r k).1 with
      | false =>
        cases succ with
        | true =>
          obtain ⟨os', lat1, k1, ho, hc⟩ :=
            hrec (link_models.simulate_classical_hop e r k).2.2
              (dist + (link_models.simulate_classical_hop e r k).2.1.distance_km)
              (lat + (link_models.simulate_classical_hop e r k).2.1.latency_ms)
              false (some (u, v))
          refine ⟨((u, v), false) :: os', lat1, k1, ?_, ?_⟩
          · simp only [simulator.classicalOutcomes, he, hb]
            rw [ho]
            rfl
          · simp only [simulator.cwalk, he, hb]
            rw [if_pos (by simp), hc]
            simp [simulator.pathDistance, he, add_assoc, classical_hop_distance]
        | false =>
          obtain ⟨os', lat1, k1, ho, hc⟩ :=
            hrec (link_models.simulate_classical_hop e r k).2.2
              (dist + (link_models.simulate_classical_hop e r k).2.1.distance_km)
              (lat + (link_models.simulate_classical_hop e r k).2.1.latency_ms)
              false lost
          refine ⟨((u, v), false) :: os', lat1, k1, ?_, ?_⟩
          · simp only [simulator.classicalOutcomes, he, hb]
            rw [ho]
            rfl
          · simp only [simulator.cwalk, he, hb]
            rw [if_neg (by simp), hc]
            simp [simulator.pathDistance, he, add_assoc, classical_hop_distance]
      | true =>
        obtain ⟨os', lat1, k1, ho, hc⟩ :=
          hrec (link_models.simulate_classical_hop e r k).2.2
            (dist + (link_models.simulate_classical_hop e r k).2.1.distance_km)
            (lat + (link_models.simulate_classical_hop e r k).2.1.latency_ms)
            succ lost
        refine ⟨((u, v), true) :: os', lat1, k1, ?_, ?_⟩
        · simp only [simulator.classicalOutcomes, he, hb]
          rw [ho]
          rfl
        · simp only [simulator.cwalk, he, hb]
          rw [if_neg (by simp), hc]
          simp [simulator.pathDistance, he, add_assoc, classical_hop_distance]

/-- C3: for a valid path (length at least 2, consecutive pairs existing
edges) the classical simulator walks every edge: it returns hops =
len(path) - 1 and total_distance_km equal to the sum of the edge
distances, success is true exactly when no hop was lost, and lost_hop
records the endpoints of the first lost hop (none when none was lost). -/
theorem simulate_path_classical_spec (G : Graph) (path : List Nat) (r : RStream) (k : Nat)
    (hlen : 2 ≤ path.length) (hE : simulator.edgesOk G path = true) :
    ∃ os m k1,
      simulator.classicalOutcomes G r path k = .ok (os, k1) ∧
      simulator.simulate_path_classical G path r k = .ok (m, k1) ∧
      m.hops = (path.length : Int) - 1 ∧
      m.total_distance_km = simulator.pathDistance G path ∧
      m.success = os.all (fun o => o.2) ∧
      m.lost_hop = (os.find? (fun o => !o.2)).map (fun o => o.1) := by
  obtain ⟨os, lat1, k1, ho, hc⟩ := cwalk_run G r path hE k 0 0 true none
  refine ⟨os, ⟨(path.length : Int) - 1, "classical_path",
    0 + simulator.pathDistance G path, lat1, true && os.all (fun o => o.2),
    (match os.find? (fun o => !o.2) with
     | some o => some o.1
     | none => none)⟩, k1, ho, ?_, rfl, by simp, by simp, ?_⟩
  · rw [simulator.simulate_path_classical, hc]
    rfl
  · cases hfind : os.find? (fun o => !o.2) <;> simp [hfind]

/-- Helper: full characterisation of the fail-fast quantum walk against
its counterfactual event trace. -/
theorem qwalk_run (G : Graph) (r : RStream) :
    ∀ (p : List Nat), simulator.edgesOk G p = true →
    ∀ (k : Nat) (acc : ℝ),
    ∃ es kE k1,
      simulator.quantumEvents G r p k = .ok (es, kE) ∧
      simulator.qwalk G r p k acc =
        .ok (es.all simulator.QEvent.ok,
          acc + simulator.eventsDistance (simulator.throughFirstFailure es), k1) := by
  intro p
  induction p with
  | nil =>
    intro _ k acc
    exact ⟨[], k, k, rfl, by
      simp [simulator.qwalk, simulator.throughFirstFailure, simulator.eventsDistance]⟩
  | cons u tl ih =>
    cases tl with
    | nil =>
      intro _ k acc
      exact ⟨[], k, k, rfl, by
        simp [simulator.qwalk, simulator.throughFirstFailure, simulator.eventsDistance]⟩
    | cons v rest =>
      intro hE k acc
      rw [simulator.edgesOk, Bool.and_eq_true] at hE
      obtain ⟨e, he⟩ := Option.isSome_iff_exists.mp hE.1
      cases rest with
      | nil =>
        refine ⟨[simulator.QEvent.hop u v
            (link_models.simulate_quantum_hop e r k).2.1.distance_km
            (link_models.simulate_quantum_hop e r k).1],
          (link_models.simulate_quantum_hop e r k).2.2,
          (link_models.simulate_quantum_hop e r k).2.2, ?_, ?_⟩
        · simp only [simulator.quantumEvents, he]
        · cases hb : (link_models.simulate_quantum_hop e r k).1 <;>
            simp [simulator.qwalk, he, hb, simulator.throughFirstFailure,
              simulator.eventsDistance, simulator.QEvent.ok, simulator.QEvent.dist]
      | cons w rest2 =>
        obtain ⟨es', kE, k1, ho, hq⟩ := ih hE.2
          (link_models.simulate_entanglement_swap (G.nodeSwap v) r
            (link_models.simulate_quantum_hop e r k).2.2).2.2
          (acc + (link_models.simulate_quantum_hop e r k).2.1.distance_km)
        have hoeq : simulator.quantumEvents G r (u :: v :: w :: rest2) k =
            .ok (simulator.QEvent.hop u v
                (link_models.simulate_quantum_hop e r k).2.1.distance_km
                (link_models.simulate_quantum_hop e r k).1 ::
              simulator.QEvent.swap v
                (link_models.simulate_entanglement_swap (G.nodeSwap v) r
                  (link_models.simulate_quantum_hop e r k).2.2).1 :: es', kE) := by
          conv_lhs => rw [simulator.quantumEvents]
          simp only [he]
          rw [ho]
          rfl
        cases hb : (link_models.simulate_quantum_hop e r k).1 with
        | false =>
          refine ⟨_, kE, (link_models.simulate_quantum_hop e r k).2.2, hoeq, ?_⟩
          conv_lhs => rw [simulator.qwalk]
          simp only [he, hb]
          simp [simulator.throughFirstFailure, simulator.eventsDistance,
            simulator.QEvent.ok, simulator.QEvent.dist, hb]
        | true =>
          cases hs : (link_models.simulate_entanglement_swap (G.nodeSwap v) r
              (link_models.simulate_quantum_hop e r k).2.2).1 with
          | false =>
            refine ⟨_, kE, (link_models.simulate_entanglement_swap (G.nodeSwap v) r
              (link_models.simulate_quantum_hop e r k).2.2).2.2, hoeq, ?_⟩
            conv_lhs => rw [simulator.qwalk]
            simp only [he, hb, hs]
            simp [simulator.throughFirstFailure, simulator.eventsDistance,
              simulator.QEvent.ok, simulator.QEvent.dist, hb, hs]
          | true =>
            refine ⟨_, kE, k1, hoeq, ?_⟩
            conv_lhs => rw [simulator.qwalk]
            simp only [he, hb, hs]
            rw [hq]
            simp [simulator.throughFirstFailure, simulator.eventsDistance,
              simulator.QEvent.ok, simulator.QEvent.dist, hb, hs, add_assoc]

/-- C2 (amended): for a valid path the quantum simulator succeeds
exactly when every hop draw and every intermediate swap succeeds, it
stops at the first failing hop or swap, and the returned
total_distance_km covers exactly the hops up to and including the
failing hop; the hops field, however, always equals len(path) - 1. -/
theorem simulate_path_quantum_spec (G : Graph) (path : List Nat) (r : RStream) (k : Nat)
    (hlen : 2 ≤ path.length) (hE : simulator.edgesOk G path = true) :
    ∃ es kE m k1,
      simulator.quantumEvents G r path k = .ok (es, kE) ∧
      simulator.simulate_path_quantum G path r k = .ok (m, k1) ∧
      (m.success = true ↔ es.all simulator.QEvent.ok = true) ∧
      m.total_distance_km =
        simulator.eventsDistance (simulator.throughFirstFailure es) ∧
      m.hops = (path.length : Int) - 1 := by
  obtain ⟨es, kE, k1, ho, hq⟩ := qwalk_run G r path hE k 0
  refine ⟨es, kE, ⟨(path.length : Int) - 1, "quantum_path",
    0 + simulator.eventsDistance (simulator.throughFirstFailure es),
    es.all simulator.QEvent.ok⟩, k1, ho, ?_, by simp, by simp, rfl⟩
  rw [simulator.simulate_path_quantum, hq]
  rfl

/-- C2, counterexample to the claim as stated: on the path [0, 1, 2]
with every draw 0 the first hop (a non-quantum edge, intercept draw
fails) fails, so only one hop is accumulated (total distance 7, the
first edge), yet the returned hops field is 2 = len(path) - 1, not 1. -/
theorem quantum_hops_field_counterexample :
    simulator.simulate_path_quantum G3 [0, 1, 2] zeroStream 0 =
      .ok (⟨2, "quantum_path", 7, false⟩, 1) ∧ (2 : Int) ≠ 1 := by
  have hif : ¬ (CLASSICAL_INTERCEPT_QUANTUM_FAIL_PROB < zeroStream 0) := by
    norm_num [CLASSICAL_INTERCEPT_QUANTUM_FAIL_PROB, zeroStream]
  have hhop : link_models.simulate_quantum_hop ⟨7, false⟩ zeroStream 0 =
      (false, ⟨1 - CLASSICAL_INTERCEPT_QUANTUM_FAIL_PROB, 7, "quantum_over_classical"⟩, 1) := by
    simp only [link_models.simulate_quantum_hop]
    rw [if_pos trivial, if_neg hif]
  have he : G3.edge 0 1 = some ⟨7, false⟩ := rfl
  refine ⟨?_, by decide⟩
  simp only [simulator.simulate_path_quantum]
  conv_lhs => rw [simulator.qwalk]
  simp [he, hhop]
  rfl

/-- C2, witness for the amended characterisation on a concrete run. -/
theorem simulate_path_quantum_spec_witness :
    2 ≤ ([0, 1, 2] : List Nat).length ∧
    simulator.edgesOk G3 [0, 1, 2] = true ∧
    ∃ es kE m k1,
      simulator.quantumEvents G3 zeroStream [0, 1, 2] 0 = .ok (es, kE) ∧
      simulator.simulate_path_quantum G3 [0, 1, 2] zeroStream 0 = .ok (m, k1) ∧
      (m.success = true ↔ es.all simulator.QEvent.ok = true) ∧
      m.total_distance_km =
        simulator.eventsDistance (simulator.throughFirstFailure es) ∧
      m.hops = (([0, 1, 2] : List Nat).length : Int) - 1 :=
  ⟨by decide, by rfl,
    simulate_path_quantum_spec G3 [0, 1, 2] zeroStream 0 (by decide) (by rfl)⟩

/-- C3, witness on a concrete run. -/
theorem simulate_path_classical_spec_witness :
    2 ≤ ([0, 1, 2] : List Nat).length ∧
    simulator.edgesOk G3 [0, 1, 2] = true ∧
    ∃ os m k1,
      simulator.classicalOutcomes G3 zeroStream [0, 1, 2] 0 = .ok (os, k1) ∧
      simulator.simulate_path_classical G3 [0, 1, 2] zeroStream 0 = .ok (m, k1) ∧
      m.hops = (([0, 1, 2] : List Nat).length : Int) - 1 ∧
      m.total_distance_km = simulator.pathDistance G3 [0, 1, 2] ∧
      m.success = os.all (fun o => o.2) ∧
      m.lost_hop = (os.find? (fun o => !o.2)).map (fun o => o.1) :=
  ⟨by decide, by rfl,
    simulate_path_classical_spec G3 [0, 1, 2] zeroStream 0 (by decide) (by rfl)⟩

/-- C7, witness at distance 2. -/
theorem quantum_survival_prob_spec_witness :
    (0 : ℝ) ≤ 2 ∧
    (link_models.quantum_survival_prob 2 =
        max 0 (min 1 (Real.exp (-(2 / COHERENCE_LENGTH_KM)))) ∧
      0 ≤ link_models.quantum_survival_prob 2 ∧
      link_models.quantum_survival_prob 2 ≤ 1 ∧
      link_models.quantum_survival_prob 0 = 1 ∧
      ∀ d2, (2 : ℝ) ≤ d2 →
        link_models.quantum_survival_prob d2 ≤ link_models.quantum_survival_prob 2) :=
  ⟨by norm_num, quantum_survival_prob_spec 2 (by norm_num)⟩

/-- C10: on a single-node path both simulators return without fault,
with hops = 0, total distance 0 and success = true. -/
theorem single_node_path_spec (G : Graph) (n : Nat) (r : RStream) (k : Nat) :
    simulator.simulate_path_quantum G [n] r k =
      .ok (⟨0, "quantum_path", 0, true⟩, k) ∧
    simulator.simulate_path_classical G [n] r k =
      .ok (⟨0, "classical_path", 0, 0, true, none⟩, k) := by
  constructor <;> rfl

/-- Helper: mapping over an ok value. -/
theorem except_map_ok {α β : Type} (f : α → β) (x : α) :
    Except.map f (Except.ok x : Except Pyerr α) = Except.ok (f x) := rfl

/-- Helper: every classical path simulation carries the classical_path
mode string. -/
theorem simulate_path_classical_mode (G : Graph) (p : List Nat) (r : RStream) (k : Nat)
    (m : simulator.CPathMetrics) (k1 : Nat)
    (h : simulator.simulate_path_classical G p r k = .ok (m, k1)) :
    m.mode = "classical_path" := by
  rw [simulator.simulate_path_classical] at h
  cases hw : simulator.cwalk G r p k 0 0 true none with
  | error e => rw [hw] at h; exact absurd h (by simp [Except.map])
  | ok w =>
    rw [hw, except_map_ok] at h
    injection h with h1
    injection h1 with hm hk
    rw [← hm]

/-- Helper: the classical tail loop produces one record per tail hop
and every record carries the classical mode tag. -/
theorem tail_run_spec (G : Graph) (r : RStream) :
    ∀ (t : List Nat) (k : Nat) (recs : List routing.HistRec) (k2 : Nat),
      routing.tail_run G r t k = .ok (recs, k2) →
      recs.length = t.length - 1 ∧ ∀ rec ∈ recs, rec.mode = "classical_path" := by
  intro t
  induction t with
  | nil =>
    intro k recs k2 h
    have h' : (Except.ok (([] : List routing.HistRec), k) : Except Pyerr _) =
        Except.ok (recs, k2) := h
    injection h' with h1
    injection h1 with hr hk
    rw [← hr]
    exact ⟨rfl, by simp⟩
  | cons x tl ih =>
    cases tl with
    | nil =>
      intro k recs k2 h
      have h' : (Except.ok (([] : List routing.HistRec), k) : Except Pyerr _) =
          Except.ok (recs, k2) := h
      injection h' with h1
      injection h1 with hr hk
      rw [← hr]
      exact ⟨rfl, by simp⟩
    | cons y rest =>
      intro k recs k2 h
      rw [routing.tail_run] at h
      cases hsim : simulator.simulate_path_classical G [x, y] r k with
      | error e => rw [hsim] at h; exact absurd h (by simp)
      | ok w =>
        obtain ⟨cres, k1⟩ := w
        rw [hsim] at h
        have h' : Except.map (fun w => (routing.HistRec.c cres [x, y] :: w.1, w.2))
            (routing.tail_run G r (y :: rest) k1) = Except.ok (recs, k2) := h
        cases htr : routing.tail_run G r (y :: rest) k1 with
        | error e => rw [htr] at h'; exact absurd h' (by simp [Except.map])
        | ok w1 =>
          obtain ⟨recs1, k3⟩ := w1
          rw [htr, except_map_ok] at h'
          injection h' with h1
          injection h1 with hr hk
          obtain ⟨hlen, hmode⟩ := ih k1 recs1 k3 htr
          rw [← hr]
          constructor
          · simp only [List.length_cons, hlen]
            omega
          · intro rec hrec
            rcases List.mem_cons.mp hrec with hrec | hrec
            · rw [hrec]
              exact simulate_path_classical_mode G [x, y] r k cres k1 hsim
            · exact hmode rec hrec

/-- C1: during send_message_reliable, when a quantum-link hop fails,
the engine computes a classical-latency-weighted path from the current
node to the destination; when no tail exists it returns success=false
with reason no_classical_fallback and the history recorded so far
(including the failed hop record); otherwise it simulates each tail
hop classically, recording each, returns success=true with the
assembled mixed path, and every history record after the failed
quantum hop carries the classical mode tag.  The last conjunct relates
send_message_reliable itself to the hop walk. -/
theorem reliable_quantum_failure_fallback
    (sp : routing.SPOracle) (G : Graph) (dst : Nat) (init_mode : String) (r : RStream)
    (u v : Nat) (rest assembled : List Nat) (history : List routing.HistRec) (k : Nat)
    (e : EdgeData) (he : G.edge u v = some e) (hq : e.quantum = true)
    (qm : simulator.PathMetrics) (k1 : Nat)
    (hsim : simulator.simulate_path_quantum G [u, v] r k = .ok (qm, k1))
    (hfail : qm.success = false) :
    ((routing.classical_latency_path sp G u dst = none ∨
        routing.classical_latency_path sp G u dst = some []) →
      routing.reliable_walk sp G dst init_mode r (u :: v :: rest) assembled history k =
        .ok (⟨false, some "no_classical_fallback", none, none,
          history ++ [routing.HistRec.q qm [u, v]]⟩, k1)) ∧
    (∀ t0 ttl recs k2,
      routing.classical_latency_path sp G u dst = some (t0 :: ttl) →
      routing.tail_run G r (t0 :: ttl) k1 = .ok (recs, k2) →
      routing.reliable_walk sp G dst init_mode r (u :: v :: rest) assembled history k =
        .ok (⟨true, none, some init_mode, some (assembled ++ ttl),
          (history ++ [routing.HistRec.q qm [u, v]]) ++ recs⟩, k2) ∧
      recs.length = ttl.length ∧
      ∀ rec ∈ recs, rec.mode = "classical_path") ∧
    (∀ fuel policy src p0 ptl,
      routing.globals_get sp fuel policy G src dst = .ok (some (p0 :: ptl)) →
      ptl ≠ [] →
      routing.send_message_reliable sp fuel G src dst policy r k =
        routing.reliable_walk sp G dst (routing.mode_lookup policy) r (p0 :: ptl) [p0] [] k) := by
  refine ⟨?_, ?_, ?_⟩
  · intro hcl
    conv_lhs => rw [routing.reliable_walk]
    rcases hcl with hcl | hcl <;> simp [he, hq, hsim, hfail, hcl]
  · intro t0 ttl recs k2 hcl htail
    obtain ⟨hlen, hmode⟩ := tail_run_spec G r (t0 :: ttl) k1 recs k2 htail
    refine ⟨?_, by simpa using hlen, hmode⟩
    conv_lhs => rw [routing.reliable_walk]
    simp [he, hq, hsim, hfail, hcl, htail]
  · intro fuel policy src p0 ptl hres hne
    have hres' : routing.globals_get sp fuel policy G src dst = .ok (some (p0 :: ptl)) := hres
    rw [routing.send_message_reliable, hres']
    simp [hne]

/-- C1, witness: a quantum hop over the 10 km quantum edge fails when
the draw is 1 (the survival probability is at most 1), and with an
oracle that finds no classical tail the walk returns the
no_classical_fallback failure with the failed hop recorded. -/
theorem reliable_quantum_failure_fallback_witness :
    G2q.edge 0 1 = some ⟨10, true⟩ ∧
    (⟨10, true⟩ : EdgeData).quantum = true ∧
    simulator.simulate_path_quantum G2q [0, 1] oneStream 0 =
      .ok (⟨1, "quantum_path", 10, false⟩, 1) ∧
    (⟨1, "quantum_path", 10, false⟩ : simulator.PathMetrics).success = false ∧
    (routing.classical_latency_path noPathOracle G2q 0 5 = none ∨
      routing.classical_latency_path noPathOracle G2q 0 5 = some []) ∧
    routing.reliable_walk noPathOracle G2q 5 "hybrid_path" oneStream [0, 1] [0] [] 0 =
      .ok (⟨false, some "no_classical_fallback", none, none,
        [routing.HistRec.q ⟨1, "quantum_path", 10, false⟩ [0, 1]]⟩, 1) := by
  have hif : ¬ (oneStream 0 < link_models.quantum_survival_prob 10) := by
    exact not_lt.mpr (le_trans (quantum_survival_prob_le_one 10) (by norm_num [oneStream]))
  have hhop : link_models.simulate_quantum_hop ⟨10, true⟩ oneStream 0 =
      (false, ⟨link_models.quantum_survival_prob 10, 10, "quantum"⟩, 1) := by
    simp only [link_models.simulate_quantum_hop]
    rw [if_neg (by simp), if_neg hif]
  have hsim : simulator.simulate_path_quantum G2q [0, 1] oneStream 0 =
      .ok (⟨1, "quantum_path", 10, false⟩, 1) := by
    simp only [simulator.simulate_path_quantum]
    conv_lhs => rw [simulator.qwalk]
    simp [show G2q.edge 0 1 = some ⟨10, true⟩ from rfl, hhop]
    rfl
  refine ⟨rfl, rfl, hsim, rfl, Or.inl rfl, ?_⟩
  have h := (reliable_quantum_failure_fallback noPathOracle G2q 5 "hybrid_path"
    oneStream 0 1 [] [0] [] 0 ⟨10, true⟩ rfl rfl ⟨1, "quantum_path", 10, false⟩ 1
    hsim rfl).1 (Or.inl rfl)
  simpa using h

/-- C6: send_message resolves the path via the named (registered)
policy; a none or empty path yields the structured no_path failure;
otherwise the whole path is simulated as quantum first, reporting
mode=quantum on success, and otherwise re-simulated as classical,
reporting the classical success flag with mode=classical. -/
theorem send_message_spec (registry : String → Option routing.PathFn) (G : Graph)
    (src dst : Nat) (policy : String) (r : RStream) (k : Nat)
    (path_fn : routing.PathFn) (hreg : registry policy = some path_fn) :
    ((path_fn G src dst = .ok none ∨ path_fn G src dst = .ok (some [])) →
      routing.send_message registry G src dst policy r k =
        .ok (⟨false, some "no_path", some policy, none, none⟩, k)) ∧
    (∀ p0 ptl, path_fn G src dst = .ok (some (p0 :: ptl)) →
      ∀ qm k1, simulator.simulate_path_quantum G (p0 :: ptl) r k = .ok (qm, k1) →
        (qm.success = true →
          routing.send_message registry G src dst policy r k =
            .ok (⟨true, none, none, some "quantum", some (p0 :: ptl)⟩, k1)) ∧
        (qm.success = false →
          ∀ cm k2,
            simulator.simulate_path_classical G (p0 :: ptl) r k1 = .ok (cm, k2) →
            routing.send_message registry G src dst policy r k =
              .ok (⟨cm.success, none, none, some "classical", some (p0 :: ptl)⟩, k2))) := by
  constructor
  · intro hpath
    rcases hpath with hpath | hpath <;>
      simp [routing.send_message, hreg, hpath]
  · intro p0 ptl hpath qm k1 hq
    constructor
    · intro hsucc
      simp [routing.send_message, hreg, hpath, hq, hsucc]
    · intro hfail cm k2 hc
      simp [routing.send_message, hreg, hpath, hq, hfail, hc]

/-- C6, witness: a registry holding a constant policy returning the
path [0]; the single-node quantum simulation succeeds, so send_message
reports mode=quantum. -/
theorem send_message_spec_witness :
    registry_const "const" = some const_path_policy ∧
    const_path_policy G2q 0 1 = .ok (some [0]) ∧
    simulator.simulate_path_quantum G2q [0] zeroStream 0 =
      .ok (⟨0, "quantum_path", 0, true⟩, 0) ∧
    routing.send_message registry_const G2q 0 1 "const" zeroStream 0 =
      .ok (⟨true, none, none, some "quantum", some [0]⟩, 0) :=
  ⟨rfl, rfl, rfl,
    ((send_message_spec registry_const G2q 0 1 "const" zeroStream 0
      const_path_policy rfl).2 0 [] rfl ⟨0, "quantum_path", 0, true⟩ 0 rfl).1 rfl⟩

/-- C8, counterexample to the claim as stated: a registered policy that
raises makes send_message propagate the exception; it does not return
a structured no-path result. -/
theorem send_message_policy_exception_counterexample :
    routing.send_message registry_with_raising G2q 0 1 "ext" zeroStream 0 =
      .error .policyError ∧
    ∀ res : routing.SendResult × Nat,
      routing.send_message registry_with_raising G2q 0 1 "ext" zeroStream 0 ≠
        .ok res := by
  have h : routing.send_message registry_with_raising G2q 0 1 "ext" zeroStream 0 =
      .error .policyError := rfl
  refine ⟨h, fun res hres => ?_⟩
  rw [h] at hres
  exact absurd hres (by simp)

/-- C8 (amended): send_message has no exception handling around the
policy call: when the registered policy raises, the exception
propagates to the caller unchanged; the structured no_path result is
produced only for a none or empty returned path. -/
theorem send_message_policy_exception_propagates
    (registry : String → Option routing.PathFn) (G : Graph) (src dst : Nat)
    (policy : String) (r : RStream) (k : Nat) (f : routing.PathFn) (err : Pyerr)
    (hreg : registry policy = some f) (hraise : f G src dst = .error err) :
    routing.send_message registry G src dst policy r k = .error err := by
  simp [routing.send_message, hreg, hraise]

/-- C8, witness for the amended claim. -/
theorem send_message_policy_exception_propagates_witness :
    registry_with_raising "ext" = some raising_policy ∧
    raising_policy G2q 0 1 = .error .policyError ∧
    routing.send_message registry_with_raising G2q 0 1 "ext" zeroStream 0 =
      .error .policyError :=
  ⟨rfl, rfl,
    send_message_policy_exception_propagates registry_with_raising G2q 0 1 "ext"
      zeroStream 0 raising_policy .policyError rfl rfl⟩

/-- C9, counterexample to the claim as stated: math is not the name of
a function defined in the routing module, yet send_message_reliable
does not silently fall back to hybrid and proceed: globals().get
returns the math module itself (math is a module global) and calling
it raises TypeError. -/
theorem unregistered_policy_resolution_counterexample :
    "math" ∉ routing.routing_module_functions ∧
    "math" ∈ routing.routing_non_path_globals ∧
    routing.send_message_reliable noPathOracle 0 G2q 0 1 "math" zeroStream 0 =
      .error .typeError ∧
    ∀ res : routing.ReliableResult × Nat,
      routing.send_message_reliable noPathOracle 0 G2q 0 1 "math" zeroStream 0 ≠
        .ok res := by
  have hsend : routing.send_message_reliable noPathOracle 0 G2q 0 1 "math"
      zeroStream 0 = .error .typeError := rfl
  refine ⟨by decide, by decide, hsend, fun res h => ?_⟩
  rw [hsend] at h
  exact absurd h (by simp)

/-- C9 (amended): a policy name absent from the routing module's
globals (implicit dunder attributes included) makes
send_message_reliable silently fall back to the hybrid policy (the
default of its globals lookup), with the raw name as mode label, and
proceed normally; a module global other than the three policies that
is not callable with (graph, src, dst) — an imported module, a typing
alias, a dunder attribute, a helper of different arity — instead makes
the call raise TypeError; and the registry lookup used by send_message
raises KeyError for an unregistered name. -/
theorem unregistered_policy_resolution (sp : routing.SPOracle) (fuel : Nat)
    (name : String) (hname : name ∉ routing.routing_module_globals) :
    routing.globals_get sp fuel name = routing.hybrid sp fuel ∧
    routing.mode_lookup name = name ∧
    routing.POLICIES sp fuel name = none ∧
    (∀ G src dst r k,
      routing.send_message (routing.POLICIES sp fuel) G src dst name r k =
        .error .keyError) ∧
    (∀ G src dst r k,
      routing.send_message_reliable sp fuel G src dst name r k =
        match routing.hybrid_path sp fuel G src dst with
        | [] => .ok (⟨false, some "no_path", none, none, []⟩, k)
        | [p0] => .ok (⟨false, some "no_path", none, none, []⟩, k)
        | p0 :: p1 :: ptl =>
          routing.reliable_walk sp G dst name r (p0 :: p1 :: ptl) [p0] [] k) ∧
    (∀ m, m ∈ routing.routing_non_path_globals →
      ∀ G src dst r k,
        routing.send_message_reliable sp fuel G src dst m r k =
          .error .typeError) := by
  have h1 : name ≠ "quantum_only" := by
    intro h; exact hname (by rw [h]; simp [routing.routing_module_globals])
  have h2 : name ≠ "classical_latency" := by
    intro h; exact hname (by rw [h]; simp [routing.routing_module_globals])
  have h3 : name ≠ "hybrid" := by
    intro h; exact hname (by rw [h]; simp [routing.routing_module_globals])
  have h4 : name ≠ "_classical_latency_path" := by
    intro h; exact hname (by rw [h]; simp [routing.routing_module_globals])
  have h5 : name ≠ "send_message" := by
    intro h; exact hname (by rw [h]; simp [routing.routing_module_globals])
  have h6 : name ≠ "send_message_reliable" := by
    intro h; exact hname (by rw [h]; simp [routing.routing_module_globals])
  have hsub : routing.routing_non_path_globals ⊆ routing.routing_module_globals := by
    decide
  have hnp : name ∉ routing.routing_non_path_globals := fun hm => hname (hsub hm)
  have hg : routing.globals_get sp fuel name = routing.hybrid sp fuel := by
    simp [routing.globals_get, h1, h2, h3, h4, h5, h6, hnp]
  have hml : routing.mode_lookup name = name := by
    simp [routing.mode_lookup, h1, h2, h3]
  refine ⟨hg, hml, by simp [routing.POLICIES, h1, h2, h3], ?_, ?_, ?_⟩
  · intro G src dst r k
    simp [routing.send_message, routing.POLICIES, h1, h2, h3]
  · intro G src dst r k
    rw [routing.send_message_reliable, hg, hml]
    cases hp : routing.hybrid_path sp fuel G src dst with
    | nil => simp [routing.hybrid, hp]
    | cons p0 tl =>
      cases tl with
      | nil => simp [routing.hybrid, hp]
      | cons p1 ptl => simp [routing.hybrid, hp]
  · intro m hm G src dst r k
    have m1 : m ≠ "quantum_only" := by
      intro h; subst h; exact absurd hm (by decide)
    have m2 : m ≠ "classical_latency" := by
      intro h; subst h; exact absurd hm (by decide)
    have m3 : m ≠ "hybrid" := by
      intro h; subst h; exact absurd hm (by decide)
    have m4 : m ≠ "_classical_latency_path" := by
      intro h; subst h; exact absurd hm (by decide)
    have m5 : m ≠ "send_message" := by
      intro h; subst h; exact absurd hm (by decide)
    have m6 : m ≠ "send_message_reliable" := by
      intro h; subst h; exact absurd hm (by decide)
    have hgg : routing.globals_get sp fuel m = fun _ _ _ => .error .typeError := by
      simp [routing.globals_get, m1, m2, m3, m4, m5, m6, hm]
    rw [routing.send_message_reliable, hgg]

/-- C9, witness at the truly absent name llm_policy (and the TypeError
branch exercised over the listed non-path globals). -/
theorem unregistered_policy_resolution_witness :
    "llm_policy" ∉ routing.routing_module_globals ∧
    (routing.globals_get noPathOracle 0 "llm_policy" = routing.hybrid noPathOracle 0 ∧
     routing.mode_lookup "llm_policy" = "llm_policy" ∧
     routing.POLICIES noPathOracle 0 "llm_policy" = none ∧
     (∀ G src dst r k,
       routing.send_message (routing.POLICIES noPathOracle 0) G src dst "llm_policy" r k =
         .error .keyError) ∧
     (∀ G src dst r k,
       routing.send_message_reliable noPathOracle 0 G src dst "llm_policy" r k =
         match routing.hybrid_path noPathOracle 0 G src dst with
         | [] => .ok (⟨false, some "no_path", none, none, []⟩, k)
         | [p0] => .ok (⟨false, some "no_path", none, none, []⟩, k)
         | p0 :: p1 :: ptl =>
           routing.reliable_walk noPathOracle G dst "llm_policy" r
             (p0 :: p1 :: ptl) [p0] [] k) ∧
     (∀ m, m ∈ routing.routing_non_path_globals →
       ∀ G src dst r k,
         routing.send_message_reliable noPathOracle 0 G src dst m r k =
           .error .typeError)) :=
  ⟨by decide, unregistered_policy_resolution noPathOracle 0 "llm_policy" (by decide)⟩

/-- C4: a run of run_bb84 that returns reports both yields as computed;
it aborts with reason QBER too high exactly when the sampled QBER
exceeds the configured limit; otherwise it aborts with the decoy-state
anomaly reason carrying the numeric yield gap exactly when the gap
exceeds its configured limit; otherwise it succeeds with key material
equal to the reconciled non-disclosed sifted bits (which the source
then hashes into the session key). -/
theorem run_bb84_spec (n : Nat)
    (bits_A bases_A is_decoy detection0 pnsDraw bases_B noise_flip bits_B_rand :
      Nat → Bool)
    (pns : Bool) (idx : List Nat) (out : part6.BB84Out)
    (hrun : part6.run_bb84 n bits_A bases_A is_decoy detection0 pnsDraw bases_B
      noise_flip bits_B_rand pns idx = .ok out) :
    out.y_sig = part6.bb84_y_sig n pns bases_A bases_B is_decoy detection0 pnsDraw ∧
    out.y_dec = part6.bb84_y_dec n pns bases_A bases_B is_decoy detection0 pnsDraw ∧
    out.qber = part6.bb84_qber (part6.bb84_sift_A n bits_A bases_A bases_B)
      (part6.bb84_sift_B n bits_A bases_A bases_B noise_flip bits_B_rand) idx ∧
    ((out.success = false ∧ out.result = .qberAbort "Abort: QBER too high") ↔
      part6.QBER_LIMIT < out.qber) ∧
    ((out.success = false ∧ out.result = .decoyAbort |out.y_sig - out.y_dec|) ↔
      (¬ part6.QBER_LIMIT < out.qber ∧
        part6.DELTA_Y_LIM < |out.y_sig - out.y_dec|)) ∧
    ((out.success = true ∧ out.result = .key (part6.reconcile
        ((part6.bb84_keep (part6.bb84_sift_A n bits_A bases_A bases_B).length idx).map
          fun i => (part6.bb84_sift_A n bits_A bases_A bases_B).getD i false)
        ((part6.bb84_keep (part6.bb84_sift_A n bits_A bases_A bases_B).length idx).map
          fun i => (part6.bb84_sift_B n bits_A bases_A bases_B noise_flip
            bits_B_rand).getD i false))) ↔
      (¬ part6.QBER_LIMIT < out.qber ∧
        ¬ part6.DELTA_Y_LIM < |out.y_sig - out.y_dec|)) := by
  simp only [part6.run_bb84] at hrun
  split_ifs at hrun with h0 h1 h2
  · rw [Except.ok.injEq] at hrun
    subst hrun
    refine ⟨rfl, rfl, rfl, ⟨fun _ => h1, fun _ => ⟨rfl, rfl⟩⟩, ?_, ?_⟩
    · simp [h1]
    · simp [h1]
  · rw [Except.ok.injEq] at hrun
    subst hrun
    refine ⟨rfl, rfl, rfl, ?_, iff_of_true ⟨rfl, rfl⟩ ⟨h1, h2⟩, ?_⟩
    · simp [h1]
    · simp [h2]
  · rw [Except.ok.injEq] at hrun
    subst hrun
    refine ⟨rfl, rfl, rfl, ?_, ?_, iff_of_true ⟨rfl, rfl⟩ ⟨h1, h2⟩⟩
    · simp [h1]
    · simp [h2]

/-- C4, witness: a concrete two-pulse session with matching bases, one
decoy, full detection, no noise: both yields are 1, the sampled QBER
is 0, and the run succeeds with the kept reconciled bit. -/
theorem run_bb84_spec_witness :
    part6.run_bb84 2 wf wf wdecoy wt wf wf wf wf false [0] =
      .ok ⟨true, 0, .key [false], 1, 1⟩ ∧
    ((⟨true, 0, .key [false], 1, 1⟩ : part6.BB84Out).y_sig =
        part6.bb84_y_sig 2 false wf wf wdecoy wt wf ∧
      (⟨true, 0, .key [false], 1, 1⟩ : part6.BB84Out).y_dec =
        part6.bb84_y_dec 2 false wf wf wdecoy wt wf ∧
      (⟨true, 0, .key [false], 1, 1⟩ : part6.BB84Out).qber =
        part6.bb84_qber (part6.bb84_sift_A 2 wf wf wf)
          (part6.bb84_sift_B 2 wf wf wf wf wf) [0] ∧
      (((⟨true, 0, .key [false], 1, 1⟩ : part6.BB84Out).success = false ∧
          (⟨true, 0, .key [false], 1, 1⟩ : part6.BB84Out).result =
            .qberAbort "Abort: QBER too high") ↔
        part6.QBER_LIMIT < (⟨true, 0, .key [false], 1, 1⟩ : part6.BB84Out).qber) ∧
      (((⟨true, 0, .key [false], 1, 1⟩ : part6.BB84Out).success = false ∧
          (⟨true, 0, .key [false], 1, 1⟩ : part6.BB84Out).result =
            .decoyAbort |(⟨true, 0, .key [false], 1, 1⟩ : part6.BB84Out).y_sig -
              (⟨true, 0, .key [false], 1, 1⟩ : part6.BB84Out).y_dec|) ↔
        (¬ part6.QBER_LIMIT < (⟨true, 0, .key [false], 1, 1⟩ : part6.BB84Out).qber ∧
          part6.DELTA_Y_LIM < |(⟨true, 0, .key [false], 1, 1⟩ : part6.BB84Out).y_sig -
            (⟨true, 0, .key [false], 1, 1⟩ : part6.BB84Out).y_dec|)) ∧
      (((⟨true, 0, .key [false], 1, 1⟩ : part6.BB84Out).success = true ∧
          (⟨true, 0, .key [false], 1, 1⟩ : part6.BB84Out).result =
            .key (part6.reconcile
              ((part6.bb84_keep (part6.bb84_sift_A 2 wf wf wf).length [0]).map
                fun i => (part6.bb84_sift_A 2 wf wf wf).getD i false)
              ((part6.bb84_keep (part6.bb84_sift_A 2 wf wf wf).length [0]).map
                fun i => (part6.bb84_sift_B 2 wf wf wf wf wf).getD i false))) ↔
        (¬ part6.QBER_LIMIT < (⟨true, 0, .key [false], 1, 1⟩ : part6.BB84Out).qber ∧
          ¬ part6.DELTA_Y_LIM <
            |(⟨true, 0, .key [false], 1, 1⟩ : part6.BB84Out).y_sig -
              (⟨true, 0, .key [false], 1, 1⟩ : part6.BB84Out).y_dec|))) :=
  by
  have hq : part6.bb84_qber (part6.bb84_sift_A 2 wf wf wf)
      (part6.bb84_sift_B 2 wf wf wf wf wf) [0] = 0 := by
    have hc : ([0] : List Nat).countP (fun i =>
        !((part6.bb84_sift_A 2 wf wf wf).getD i false ==
          (part6.bb84_sift_B 2 wf wf wf wf wf).getD i false)) = 0 := by decide
    rw [part6.bb84_qber, hc]
    norm_num
  have hys : part6.bb84_y_sig 2 false wf wf wdecoy wt wf = 1 := by
    have hfil : ((List.range 2).filter fun i => (wf i == wf i) && !wdecoy i) =
        [0] := by decide
    have hc : ([0] : List Nat).countP
        (part6.bb84_detection false wdecoy wt wf) = 1 := by decide
    rw [part6.bb84_y_sig, hfil, part6.maskMean, if_neg (by decide), hc]
    norm_num
  have hyd : part6.bb84_y_dec 2 false wf wf wdecoy wt wf = 1 := by
    have hfil : ((List.range 2).filter fun i => (wf i == wf i) && wdecoy i) =
        [1] := by decide
    have hc : ([1] : List Nat).countP
        (part6.bb84_detection false wdecoy wt wf) = 1 := by decide
    rw [part6.bb84_y_dec, hfil, part6.maskMean, if_neg (by decide), hc]
    norm_num
  have hkey : part6.reconcile
      ((part6.bb84_keep (part6.bb84_sift_A 2 wf wf wf).length [0]).map
        fun i => (part6.bb84_sift_A 2 wf wf wf).getD i false)
      ((part6.bb84_keep (part6.bb84_sift_A 2 wf wf wf).length [0]).map
        fun i => (part6.bb84_sift_B 2 wf wf wf wf wf).getD i false) =
      [false] := by decide
  have hrun : part6.run_bb84 2 wf wf wdecoy wt wf wf wf wf false [0] =
      .ok ⟨true, 0, .key [false], 1, 1⟩ := by
    simp only [part6.run_bb84]
    rw [if_neg (by decide), hq, hys, hyd, hkey,
      if_neg (by norm_num [part6.QBER_LIMIT]),
      if_neg (by norm_num [part6.DELTA_Y_LIM])]
  exact ⟨hrun,
    run_bb84_spec 2 wf wf wdecoy wt wf wf wf wf false [0]
      ⟨true, 0, .key [false], 1, 1⟩ hrun⟩

/-- Helper: one hill-climb step keeps the accepted mask within the
budget. -/
theorem hill_step_mask_bound (env : repeater.RepeaterEnv)
    (sp0 : Graph → Nat → Nat → Option (List Nat)) (flips : Nat → Nat)
    (r : RStream) (s s' : repeater.HillState)
    (h : repeater.hill_step env sp0 flips r s = .ok s')
    (hs : s.best_mask.count true ≤ env.max_repeaters) :
    s'.best_mask.count true ≤ env.max_repeaters := by
  rw [repeater.hill_step] at h
  split_ifs at h with hover
  · rw [Except.ok.injEq] at h
    subst h
    exact hs
  · cases hr : repeater.compute_reward env sp0
        (repeater.toggle s.best_mask (flips s.j)) r s.k with
    | error e => rw [hr] at h; exact absurd h (by simp)
    | ok w =>
      rw [hr] at h
      have h' : (if s.best_reward < w.1 then
          (Except.ok ⟨repeater.toggle s.best_mask (flips s.j), w.1,
            repeater.toggle s.best_mask (flips s.j), s.j + 1, w.2⟩ :
            Except Pyerr repeater.HillState)
        else
          .ok ⟨s.best_mask, s.best_reward,
            repeater.toggle s.best_mask (flips s.j), s.j + 1, w.2⟩) = .ok s' := h
      split_ifs at h' with hacc
      · rw [Except.ok.injEq] at h'
        subst h'
        exact not_lt.mp hover
      · rw [Except.ok.injEq] at h'
        subst h'
        exact hs

/-- Helper: one hill-climb step never decreases the best reward. -/
theorem hill_step_reward_mono (env : repeater.RepeaterEnv)
    (sp0 : Graph → Nat → Nat → Option (List Nat)) (flips : Nat → Nat)
    (r : RStream) (s s' : repeater.HillState)
    (h : repeater.hill_step env sp0 flips r s = .ok s') :
    s.best_reward ≤ s'.best_reward := by
  rw [repeater.hill_step] at h
  split_ifs at h with hover
  · rw [Except.ok.injEq] at h
    subst h
    exact le_refl _
  · cases hr : repeater.compute_reward env sp0
        (repeater.toggle s.best_mask (flips s.j)) r s.k with
    | error e => rw [hr] at h; exact absurd h (by simp)
    | ok w =>
      rw [hr] at h
      have h' : (if s.best_reward < w.1 then
          (Except.ok ⟨repeater.toggle s.best_mask (flips s.j), w.1,
            repeater.toggle s.best_mask (flips s.j), s.j + 1, w.2⟩ :
            Except Pyerr repeater.HillState)
        else
          .ok ⟨s.best_mask, s.best_reward,
            repeater.toggle s.best_mask (flips s.j), s.j + 1, w.2⟩) = .ok s' := h
      split_ifs at h' with hacc
      · rw [Except.ok.injEq] at h'
        subst h'
        exact le_of_lt hacc
      · rw [Except.ok.injEq] at h'
        subst h'
        exact le_refl _

/-- C5: along every hill_climb run from the all-zero mask the accepted
best mask never exceeds the repeater budget, the best reward is
non-decreasing across iterations, a candidate replaces the best only
when its reward strictly exceeds the current best, and an over-budget
candidate is discarded without consuming any reward-evaluation draws
(the link cursor k is unchanged). -/
theorem hill_climb_invariants (env : repeater.RepeaterEnv)
    (sp0 : Graph → Nat → Nat → Option (List Nat)) (flips : Nat → Nat)
    (r : RStream) (k : Nat) :
    (∀ n s, repeater.hill_iter env sp0 flips r k n = .ok s →
      s.best_mask.count true ≤ env.max_repeaters) ∧
    (∀ n s s', repeater.hill_iter env sp0 flips r k n = .ok s →
      repeater.hill_iter env sp0 flips r k (n + 1) = .ok s' →
      s.best_reward ≤ s'.best_reward) ∧
    (∀ s s', repeater.hill_step env sp0 flips r s = .ok s' →
      s'.best_mask ≠ s.best_mask → s.best_reward < s'.best_reward) ∧
    (∀ s, env.max_repeaters < (repeater.toggle s.best_mask (flips s.j)).count true →
      repeater.hill_step env sp0 flips r s =
        .ok ⟨s.best_mask, s.best_reward,
          repeater.toggle s.best_mask (flips s.j), s.j + 1, s.k⟩) := by
  refine ⟨?_, ?_, ?_, ?_⟩
  · intro n
    induction n with
    | zero =>
      intro s h
      rw [repeater.hill_iter, repeater.hill_init] at h
      cases hr : repeater.compute_reward env sp0
          (List.replicate env.n_nodes false) r k with
      | error e => rw [hr] at h; exact absurd h (by simp [Except.map])
      | ok w =>
        rw [hr, except_map_ok, Except.ok.injEq] at h
        subst h
        simp [List.count_replicate]
    | succ n ih =>
      intro s h
      rw [repeater.hill_iter] at h
      cases hprev : repeater.hill_iter env sp0 flips r k n with
      | error e => rw [hprev] at h; exact absurd h (by simp [Except.bind])
      | ok s0 =>
        rw [hprev] at h
        exact hill_step_mask_bound env sp0 flips r s0 s h (ih s0 hprev)
  · intro n s s' h h'
    rw [repeater.hill_iter, h] at h'
    exact hill_step_reward_mono env sp0 flips r s s' h'
  · intro s s' h hne
    rw [repeater.hill_step] at h
    split_ifs at h with hover
    · rw [Except.ok.injEq] at h
      subst h
      exact absurd rfl hne
    · cases hr : repeater.compute_reward env sp0
          (repeater.toggle s.best_mask (flips s.j)) r s.k with
      | error e => rw [hr] at h; exact absurd h (by simp)
      | ok w =>
        rw [hr] at h
        have h' : (if s.best_reward < w.1 then
            (Except.ok ⟨repeater.toggle s.best_mask (flips s.j), w.1,
              repeater.toggle s.best_mask (flips s.j), s.j + 1, w.2⟩ :
              Except Pyerr repeater.HillState)
          else
            .ok ⟨s.best_mask, s.best_reward,
              repeater.toggle s.best_mask (flips s.j), s.j + 1, w.2⟩) = .ok s' := h
        split_ifs at h' with hacc
        · rw [Except.ok.injEq] at h'
          subst h'
          exact hacc
        · rw [Except.ok.injEq] at h'
          subst h'
          exact absurd rfl hne
  · intro s hover
    rw [repeater.hill_step, if_pos hover]

/-- C5, witness: one iteration over a disconnected oracle; the initial
reward is -1, the flipped candidate is within budget, its reward -1
does not strictly improve, so the best mask stays all-zero and within
the budget of 3. -/
theorem hill_climb_invariants_witness :
    repeater.hill_iter envW sp0None flips0 zeroStream 0 1 =
      .ok ⟨[false, false], -1, [true, false], 1, 0⟩ ∧
    (⟨[false, false], -1, [true, false], 1, 0⟩ :
      repeater.HillState).best_mask.count true ≤ envW.max_repeaters :=
  ⟨by rfl,
    (hill_climb_invariants envW sp0None flips0 zeroStream 0).1 1
      ⟨[false, false], -1, [true, false], 1, 0⟩ (by rfl)⟩

end SimQ
